import Mathlib

/-!
Verification of the YaMDb review-platform core: a shallow embedding of the
authorization engine, the review-uniqueness write path, the rating
computation and the authentication flow, with theorems checking the
specification's claims against this embedding.

Sources embedded: `reviews/models.py` (User, Review, Title.rating),
`api/permissions.py`, `api/serializers.py`, `api/views.py`.
-/

/-- HTTP methods used by the API. Django REST framework's `SAFE_METHODS`
are GET, HEAD and OPTIONS. -/
inductive Method
| get
| head
| options
| post
| patch
| delete
deriving DecidableEq, Repr

/-- Membership of the method in `permissions.SAFE_METHODS`. -/
def Method.isSafe : Method → Bool
| .get => true
| .head => true
| .options => true
| _ => false

/-- A user record, from `reviews/models.py` `class User(AbstractUser)`.
The role is the raw `CharField` value (`'user'`, `'moderator'`, `'admin'`). -/
structure User where
  id : Nat
  username : String
  email : String
  role : String
  is_superuser : Bool
  confirmation_code : String
  bio : String
  first_name : String
  last_name : String
deriving DecidableEq, Repr

/-- Property `User.is_admin`: `self.role == 'admin' or self.is_superuser`. -/
def User.is_admin (u : User) : Bool :=
  u.role == "admin" || u.is_superuser

/-- Property `User.is_moderator`: `self.role == 'moderator'`. -/
def User.is_moderator (u : User) : Bool :=
  u.role == "moderator"

/-- The identity attached to a request: `none` is an anonymous request
(`request.user.is_authenticated` is false exactly when the option is `none`). -/
def isAuthenticated (ou : Option User) : Bool :=
  ou.isSome

/-- Embedding of `AuthorPermissionMixin.check_object_permission` for an authenticated
user: `request.method in SAFE_METHODS or request.user.is_admin or
request.user.is_moderator or obj.author == request.user`. Model instances
compare by primary key, so `obj.author == request.user` is id equality. -/
def check_object_permission (m : Method) (u : User) (objAuthorId : Nat) : Bool :=
  m.isSafe || u.is_admin || u.is_moderator || objAuthorId == u.id

/-- The same object check run against a possibly-anonymous request user.
Python evaluates the `or` chain left to right: a safe method returns True
before any attribute of the user is read; on an anonymous user the read of
`request.user.is_admin` would raise `AttributeError`, modelled as `none`. -/
def objectPermissionRun (m : Method) (ou : Option User) (objAuthorId : Nat) : Option Bool :=
  if m.isSafe then some true
  else
    match ou with
    | none => none
    | some u => some (u.is_admin || u.is_moderator || objAuthorId == u.id)

/-- Embedding of `AdminPermission.has_permission`:
`request.user.is_authenticated and request.user.is_admin`. -/
def adminHasPermission (ou : Option User) : Bool :=
  match ou with
  | none => false
  | some u => u.is_admin

/-- Embedding of `AdminOrReadOnlyPermission.has_permission`: `request.method in
SAFE_METHODS or (request.user.is_authenticated and request.user.is_admin)`. -/
def adminOrReadOnlyHasPermission (m : Method) (ou : Option User) : Bool :=
  m.isSafe ||
    match ou with
    | none => false
    | some u => u.is_admin

/-- Embedding of `ContentManagerPermission.has_permission`:
`request.method in SAFE_METHODS or request.user.is_authenticated`. -/
def contentManagerHasPermission (m : Method) (ou : Option User) : Bool :=
  m.isSafe || isAuthenticated ou

/-- Framework `IsAuthenticatedOrReadOnly.has_permission`. -/
def isAuthOrReadOnlyHasPermission (m : Method) (ou : Option User) : Bool :=
  isAuthenticated ou || m.isSafe

/-- The resource classes served by the API, each with the permission
classes its viewset declares in `api/views.py`. -/
inductive ResourceClass
| category
| genre
| title
| review
| comment
| usersAdmin
| usersMe
deriving DecidableEq, Repr

/-- The class-level permission check for each resource class, the
conjunction of all permission classes on its viewset (DRF requires every
listed permission class to pass). -/
def classLevelCheck (rc : ResourceClass) (m : Method) (ou : Option User) : Bool :=
  match rc with
  | .category => adminOrReadOnlyHasPermission m ou
  | .genre => adminOrReadOnlyHasPermission m ou
  | .title => adminOrReadOnlyHasPermission m ou
  | .review => isAuthOrReadOnlyHasPermission m ou && contentManagerHasPermission m ou
  | .comment => isAuthOrReadOnlyHasPermission m ou && contentManagerHasPermission m ou
  | .usersAdmin => adminHasPermission ou
  | .usersMe => isAuthenticated ou

/-- DRF evaluation order: `check_permissions` runs at dispatch and denies
before `check_object_permissions` is ever consulted. The object-level
check is passed as a function so that denial at class level is
independent of it. -/
def permissionGate (rc : ResourceClass) (m : Method) (ou : Option User)
    (objCheck : Option User → Option Bool) : Option Bool :=
  if classLevelCheck rc m ou then objCheck ou else some false

example : adminOrReadOnlyHasPermission .post none = false := by decide
example : classLevelCheck .review .get none = true := by decide

/-- A review row, from `reviews/models.py` `class Review`. The `title` and
`author` foreign keys are carried as ids. -/
structure Review where
  id : Nat
  titleId : Nat
  authorId : Nat
  score : Nat
  text : String
deriving DecidableEq, Repr

/-- Embedding of `Review.objects.filter(title_id=title_id, author=user).exists()`. -/
def hasReviewFor (store : List Review) (titleId authorId : Nat) : Bool :=
  store.any fun r => r.titleId == titleId && r.authorId == authorId

/-- Embedding of `ReviewSerializer.validate_score`: accepted iff `1 <= value <= 10`. -/
def validate_score (score : Nat) : Bool :=
  1 ≤ score && score ≤ 10

/-- Embedding of `ReviewSerializer.validate`: the one-review-per-(title, author) check.
Returns `true` when the serializer raises the duplicate-review
`ValidationError`; the existence query runs only under
`request.method == 'POST'`. -/
def reviewUniquenessGuard (m : Method) (store : List Review) (titleId authorId : Nat) : Bool :=
  m == .post && hasReviewFor store titleId authorId

/-- Outcome of a review create request after the permission gate. -/
inductive CreateReviewResult
| created (store : List Review)
| scoreInvalid
| conflict
| titleAbsent
deriving DecidableEq, Repr

/-- The create-review write path (`ReviewViewSet` create): DRF runs
field validation (`validate_score`) first, then the serializer-level
`validate` uniqueness check, and only then `perform_create`, whose
`get_object_or_404(Title, id=title_id)` yields NOT_FOUND for an unknown
title before the row is inserted. -/
def createReview (titles : List Nat) (store : List Review)
    (authorId titleId score : Nat) (text : String) (newId : Nat) : CreateReviewResult :=
  if !(validate_score score) then .scoreInvalid
  else if reviewUniquenessGuard .post store titleId authorId then .conflict
  else if !(titles.contains titleId) then .titleAbsent
  else .created ({ id := newId, titleId := titleId, authorId := authorId,
                   score := score, text := text } :: store)

/-- Outcome of a review update request after the permission gate. -/
inductive UpdateReviewResult
| updated (store : List Review)
| scoreInvalid
| conflict
| reviewAbsent
deriving DecidableEq, Repr

/-- The PATCH write path on a review instance (`partial_update`): the
instance is resolved first (404 when absent), then the serializer
validates; `ReviewSerializer.validate` sees `request.method == 'PATCH'`.
Only `score` and `text` are writable (`author` is read-only, `title`
comes from the URL), so the (title, author) pair of the row is kept. -/
def updateReview (store : List Review) (reviewId score : Nat) (text : String) : UpdateReviewResult :=
  match store.find? (fun r => r.id == reviewId) with
  | none => .reviewAbsent
  | some r =>
    if !(validate_score score) then .scoreInvalid
    else if reviewUniquenessGuard .patch store r.titleId r.authorId then .conflict
    else .updated (store.map fun s =>
      if s.id == reviewId then { s with score := score, text := text } else s)

/-- The DELETE path on a review instance: the row is removed. -/
def deleteReview (store : List Review) (reviewId : Nat) : List Review :=
  store.filter fun r => !(r.id == reviewId)

/-- The store invariant backing `UniqueConstraint(fields=['title',
'author'], name='unique_review')`: no two rows share a (title, author)
pair. -/
def uniquePerTitleAuthor (store : List Review) : Prop :=
  store.Pairwise fun r₁ r₂ => ¬(r₁.titleId = r₂.titleId ∧ r₁.authorId = r₂.authorId)

/-- Rounding of a rational exactly as Python 3 `round` rounds the
corresponding real value: to the nearest integer, ties to the even
integer. -/
def pyRound (q : ℚ) : ℤ :=
  if Int.fract q < 1 / 2 then ⌊q⌋
  else if 1 / 2 < Int.fract q then ⌊q⌋ + 1
  else if ⌊q⌋ % 2 = 0 then ⌊q⌋ else ⌊q⌋ + 1

/-- Property `Title.rating`: `None` when the title has no reviews, else
`round(sum(review.score for review in reviews) / len(reviews))`. -/
def titleRating (scores : List Nat) : Option ℤ :=
  if scores.isEmpty then none
  else some (pyRound ((scores.map fun s => (s : ℚ)).sum / (scores.length : ℚ)))

/-- Embedding of `TitleSerializer.get_rating` over the `rating_avg` annotation:
`round(obj.rating_avg) if obj.rating_avg else None` — `none` models both
a missing annotation and the SQL `NULL` average of zero rows, and a zero
average is also mapped to `None` by Python falsiness. -/
def get_rating (ratingAvg : Option ℚ) : Option ℤ :=
  match ratingAvg with
  | none => none
  | some q => if q == 0 then none else some (pyRound q)

example : titleRating [8, 9] = some 8 := by norm_num [titleRating, pyRound, Int.fract]
example : titleRating [7, 8] = some 8 := by norm_num [titleRating, pyRound, Int.fract]
example : titleRating [] = none := by norm_num [titleRating]

/-- A character allowed by the username regular expression class
`[\w.@+-]`: word characters (letters, digits, underscore) plus
`.` `@` `+` `-`. -/
def isUsernameChar (c : Char) : Bool :=
  c.isAlphanum || c == '_' || c == '.' || c == '@' || c == '+' || c == '-'

/-- Whole-string match of the username against `r'^[\w.@+-]+\Z'`: a
nonempty string of allowed characters (the `\Z` anchor admits no trailing
newline). -/
def matchesUsernamePattern (s : String) : Bool :=
  !(s.isEmpty) && s.toList.all isUsernameChar

/-- Python `str.lower` restricted to the per-character mapping (exact for
the ASCII usernames at issue). -/
def strLower (s : String) : String :=
  ⟨s.data.map Char.toLower⟩

/-- Embedding of `validate_username_field` from `api/serializers.py`: the reserved
literal `'me'` is rejected case-insensitively first, then the pattern is
checked; a passing value is returned unchanged. -/
def validate_username_field (s : String) : Except String String :=
  if strLower s == "me" then .error "forbidden username"
  else if !(matchesUsernamePattern s) then .error "invalid username"
  else .ok s

/-- Outcome of a sign-up request. -/
inductive SignUpResult
| okResponse (store : List User) (email username : String)
| emailTaken
| usernameTaken
| usernameInvalid
deriving DecidableEq, Repr

/-- A fresh user row created by `get_or_create` at sign-up: Django model
defaults give role `'user'`, and only `username` and `email` are set. -/
def freshUser (newId : Nat) (username email code : String) : User :=
  { id := newId, username := username, email := email, role := "user",
    is_superuser := false, confirmation_code := code, bio := "",
    first_name := "", last_name := "" }

/-- Embedding of `SignUpView.post` composed with `SignUpSerializer`: username
validation, then the two partial-collision checks of
`SignUpSerializer.validate` (same email with a different username; same
username with a different email), then `get_or_create(username=...)`
with the defensive email re-check of the view, then the confirmation
code is stored on the (found or created) user. The freshly generated
`secrets.token_hex(16)` value is the `code` argument. -/
def signUp (store : List User) (username email code : String) (newId : Nat) : SignUpResult :=
  match validate_username_field username with
  | .error _ => .usernameInvalid
  | .ok _ =>
    if store.any (fun u => u.email == email && !(u.username == username)) then .emailTaken
    else if store.any (fun u => u.username == username && !(u.email == email)) then .usernameTaken
    else
      match store.find? (fun u => u.username == username) with
      | some u =>
        if !(u.email == email) then .usernameTaken
        else .okResponse
          (store.map fun v =>
            if v.username == username then { v with confirmation_code := code } else v)
          email username
      | none => .okResponse (freshUser newId username email code :: store) email username

/-- Outcome of a token-exchange request. -/
inductive TokenResult
| tokenIssued (userId : Nat)
| userAbsent
| wrongCode
| usernameInvalid
deriving DecidableEq, Repr

/-- Embedding of `TokenView.post` composed with `TokenSerializer`: the serializer
checks only the username pattern (not the reserved literal), the view
looks the user up by username (404 when absent), compares the stored
`confirmation_code` by exact string equality (400 on mismatch) and
issues a token bound to the user's id on match. -/
def tokenExchange (store : List User) (username code : String) : TokenResult :=
  if !(matchesUsernamePattern username) then .usernameInvalid
  else
    match store.find? (fun u => u.username == username) with
    | none => .userAbsent
    | some u =>
      if !(u.confirmation_code == code) then .wrongCode
      else .tokenIssued u.id

/-- The writable-through-serializer fields of the user model named by
`UserSerializer`/`MeSerializer` `Meta.fields`. -/
inductive UserField
| usernameF
| emailF
| firstNameF
| lastNameF
| bioF
| roleF
deriving DecidableEq, Repr

/-- Embedding of `MeSerializer.Meta.fields`. -/
def meFields : List UserField :=
  [.usernameF, .emailF, .firstNameF, .lastNameF, .bioF, .roleF]

/-- Embedding of `MeSerializer.Meta.read_only_fields = ('role',)`. -/
def meReadOnlyFields : List UserField :=
  [.roleF]

/-- The writable set DRF derives from the serializer: declared fields
minus the read-only ones. -/
def meWritableFields : List UserField :=
  meFields.filter fun f => !(meReadOnlyFields.contains f)

/-- Assignment of one incoming field value onto the user row. -/
def setField (u : User) : UserField → String → User
| .usernameF, v => { u with username := v }
| .emailF, v => { u with email := v }
| .firstNameF, v => { u with first_name := v }
| .lastNameF, v => { u with last_name := v }
| .bioF, v => { u with bio := v }
| .roleF, v => { u with role := v }

/-- ModelSerializer update: incoming items whose field is outside the
writable set are dropped (read-only fields never reach
`validated_data`), the rest are assigned onto the instance. -/
def serializerApply (writable : List UserField) (u : User) (data : List (UserField × String)) : User :=
  (data.filter fun p => writable.contains p.1).foldl (fun acc p => setField acc p.1 p.2) u

/-- Embedding of `MeSerializer` field validation: every supplied username value must
pass `validate_username_field` (email format validation is left
abstract). -/
def meValidate (data : List (UserField × String)) : Bool :=
  data.all fun p =>
    if p.1 == UserField.usernameF then
      match validate_username_field p.2 with
      | .ok _ => true
      | .error _ => false
    else true

/-- The PATCH branch of `UserViewSet.me`: validate, then save the
partial update through `MeSerializer`. -/
def meUpdate (u : User) (data : List (UserField × String)) : Except String User :=
  if meValidate data then .ok (serializerApply meWritableFields u data)
  else .error "validation"

/-- Outcome of a request to the `/users/me` action. -/
inductive MeViewResult
| okProfile (u : User)
| okUpdated (u : User)
| methodNotAllowed
| badRequest
deriving DecidableEq, Repr

/-- Embedding of `UserViewSet.me` for an authenticated user `u`: DELETE answers 405
before anything else, GET serializes the profile, PATCH validates and
saves; the identity store is returned alongside the response. -/
def meHandler (m : Method) (u : User) (data : List (UserField × String))
    (store : List User) : MeViewResult × List User :=
  if m == .delete then (.methodNotAllowed, store)
  else if m == .get then (.okProfile u, store)
  else
    match meUpdate u data with
    | .ok u₂ => (.okUpdated u₂, store.map fun v => if v.id == u.id then u₂ else v)
    | .error _ => (.badRequest, store)

example : validate_username_field "ME" = .error "forbidden username" := by rfl
example : validate_username_field "alice.smith@x+y-z_1" = .ok "alice.smith@x+y-z_1" := by rfl
example : validate_username_field "bad name" = .error "invalid username" := by rfl

/-- A sample user for concrete instantiations. -/
def mkUser (id : Nat) (role : String) : User :=
  { id := id, username := "u", email := "e@x.com", role := role,
    is_superuser := false, confirmation_code := "c", bio := "",
    first_name := "", last_name := "" }

/-- A sample review row for concrete instantiations. -/
def rev0 : Review :=
  { id := 0, titleId := 1, authorId := 1, score := 7, text := "good" }

/-- Lemma: `pyRound` rounds to a nearest integer and resolves exact halves to
the even integer, matching Python 3 `round`. -/
theorem pyRound_nearest (q : ℚ) :
    |q - (pyRound q : ℚ)| ≤ 1 / 2
    ∧ (|q - (pyRound q : ℚ)| = 1 / 2 → pyRound q % 2 = 0) := by
  have h0 : (0 : ℚ) ≤ Int.fract q := Int.fract_nonneg q
  have h1 : Int.fract q < 1 := Int.fract_lt_one q
  have hqf : q - (⌊q⌋ : ℚ) = Int.fract q := Int.self_sub_floor q
  unfold pyRound
  by_cases hlt : Int.fract q < 1 / 2
  · simp only [hlt, if_true]
    rw [hqf, abs_of_nonneg h0]
    exact ⟨le_of_lt hlt, fun habs => absurd habs (ne_of_lt hlt)⟩
  · by_cases hgt : 1 / 2 < Int.fract q
    · simp only [hlt, hgt, if_false, if_true]
      have hsub : q - ((⌊q⌋ + 1 : ℤ) : ℚ) = Int.fract q - 1 := by
        push_cast
        rw [← hqf]; ring
      rw [hsub, abs_of_nonpos (by linarith)]
      constructor
      · linarith
      · intro habs
        exact absurd (by linarith : Int.fract q = 1 / 2) (ne_of_gt hgt)
    · have heq : Int.fract q = 1 / 2 := le_antisymm (not_lt.mp hgt) (not_lt.mp hlt)
      by_cases hev : ⌊q⌋ % 2 = 0
      · simp only [hlt, hgt, hev, if_false, if_true]
        rw [hqf, abs_of_nonneg h0, heq]
        exact ⟨le_refl _, fun _ => trivial⟩
      · simp only [hlt, hgt, hev, if_false]
        have hsub : q - ((⌊q⌋ + 1 : ℤ) : ℚ) = Int.fract q - 1 := by
          push_cast
          rw [← hqf]; ring
        rw [hsub, heq, abs_of_nonpos (by norm_num)]
        have hodd : ⌊q⌋ % 2 = 1 := by omega
        exact ⟨by norm_num, fun _ => by omega⟩

/-- Counterexample to C2 as stated: with review scores `[8, 9]` the code
computes `round(8.5)` by Python rounding (ties to even) and answers 8,
not the claimed round-half-up value 9. -/
theorem c2_counterexample :
    titleRating [8, 9] ≠ some 9 ∧ titleRating [8, 9] = some 8 := by
  constructor <;> norm_num [titleRating, pyRound, Int.fract]

/-- Claim C2 (amended): a title with zero reviews has an absent rating;
with at least one review the rating is a nearest integer to the
arithmetic mean of the scores with exact halves resolved to the EVEN
integer (Python `round`), so scores `[8, 9]` yield 8 (not 9) and
`[7, 8]` yield 8; the serializer path agrees that an absent average
yields an absent rating. -/
theorem c2_rating_amended (scores : List Nat) :
    (titleRating scores = none ↔ scores = [])
    ∧ (∀ r : ℤ, titleRating scores = some r →
        |(scores.map fun s => (s : ℚ)).sum / (scores.length : ℚ) - (r : ℚ)| ≤ 1 / 2
        ∧ (|(scores.map fun s => (s : ℚ)).sum / (scores.length : ℚ) - (r : ℚ)| = 1 / 2 →
            r % 2 = 0))
    ∧ titleRating [8, 9] = some 8
    ∧ titleRating [7, 8] = some 8
    ∧ get_rating none = none := by
  refine ⟨?_, ?_, ?_, ?_, rfl⟩
  · by_cases h : scores = [] <;> simp [titleRating, h]
  · intro r hr
    by_cases h : scores = []
    · simp [titleRating, h] at hr
    · have hne : scores.isEmpty = false := by simpa [List.isEmpty_iff] using h
      simp only [titleRating, hne, Bool.false_eq_true, if_false, Option.some_inj] at hr
      rw [← hr]
      exact pyRound_nearest _
  · norm_num [titleRating, pyRound, Int.fract]
  · norm_num [titleRating, pyRound, Int.fract]

/-- Witness for C2 (amended): the `[8, 9]` boundary case evaluates to 8. -/
theorem c2_rating_amended_witness : titleRating [8, 9] = some 8 :=
  (c2_rating_amended [8, 9]).2.2.1

/-- Claim C3: for an authenticated identity, an update or delete (any
non-safe method) on a Review or Comment instance is allowed by the
object-level check exactly when the identity has role admin, or is a
superuser, or has role moderator, or is the author of the instance. -/
theorem c3_object_write_authorization (m : Method) (u : User) (objAuthorId : Nat)
    (hm : m.isSafe = false) :
    check_object_permission m u objAuthorId = true ↔
      (u.role = "admin" ∨ u.is_superuser = true ∨ u.role = "moderator" ∨ objAuthorId = u.id) := by
  simp [check_object_permission, User.is_admin, User.is_moderator, hm]
  tauto

/-- Witness for C3: a plain user patching their own review is allowed. -/
theorem c3_object_write_authorization_witness :
    check_object_permission .patch (mkUser 1 "user") 1 = true :=
  (c3_object_write_authorization .patch (mkUser 1 "user") 1 (by decide)).mpr
    (Or.inr (Or.inr (Or.inr rfl)))

/-- Claim C4: every anonymous write (non-safe method) on every resource
class is denied by the class-level permission check, whatever the
object-level check would say; and with the real object-level check the
full gate never reaches the branch where an anonymous user's role
attributes would be read (the `none` outcome). -/
theorem c4_anonymous_write_denied (rc : ResourceClass) (m : Method)
    (objCheck : Option User → Option Bool) (objAuthorId : Nat)
    (hm : m.isSafe = false) :
    permissionGate rc m none objCheck = some false
    ∧ (∀ ou : Option User,
        permissionGate rc m ou (fun v => objectPermissionRun m v objAuthorId) ≠ none) := by
  have hcls : classLevelCheck rc m none = false := by
    cases rc <;>
      simp [classLevelCheck, adminOrReadOnlyHasPermission, contentManagerHasPermission,
        isAuthOrReadOnlyHasPermission, adminHasPermission, isAuthenticated, hm]
  refine ⟨by simp [permissionGate, hcls], ?_⟩
  intro ou
  cases ou with
  | none => simp [permissionGate, hcls]
  | some u =>
    by_cases hc : classLevelCheck rc m (some u) = true <;>
      simp [permissionGate, objectPermissionRun, hm, hc]

/-- Witness for C4: an anonymous POST to the review endpoint is denied. -/
theorem c4_anonymous_write_denied_witness :
    permissionGate .review .post none (fun _ => some true) = some false :=
  (c4_anonymous_write_denied .review .post (fun _ => some true) 0 (by decide)).1

/-- Claim C5: a sign-up username passes `validate_username_field`
unchanged exactly when it is not the literal `me` in any letter case and
it matches the username pattern; otherwise validation yields an error. -/
theorem c5_username_validation (s : String) :
    (validate_username_field s = .ok s ↔
      (strLower s ≠ "me" ∧ matchesUsernamePattern s = true))
    ∧ ((strLower s = "me" ∨ matchesUsernamePattern s = false) →
        ∃ e, validate_username_field s = .error e) := by
  unfold validate_username_field
  by_cases h1 : strLower s == "me"
  · simp_all
  · by_cases h2 : matchesUsernamePattern s <;> simp_all

/-- Witness for C5: `Me` is rejected while `alice` passes unchanged. -/
theorem c5_username_validation_witness :
    (∃ e, validate_username_field "Me" = .error e)
    ∧ validate_username_field "alice" = .ok "alice" :=
  ⟨(c5_username_validation "Me").2 (Or.inl (by decide)),
   (c5_username_validation "alice").1.mpr ⟨by decide, by decide⟩⟩

/-- Claim C6: sign-up fails when an existing identity shares the email
with a different username, or the username with a different email; an
identity with exactly this username and email is reused (the store keeps
the same usernames, emails and size); otherwise a fresh identity is
created; a successful response carries the email and username. -/
theorem c6_signup (store : List User) (username email code : String) (newId : Nat)
    (hun : validate_username_field username = .ok username) :
    ((∃ u ∈ store, u.email = email ∧ u.username ≠ username) →
        signUp store username email code newId = .emailTaken)
    ∧ ((∀ u ∈ store, ¬(u.email = email ∧ u.username ≠ username)) →
        (∃ u ∈ store, u.username = username ∧ u.email ≠ email) →
        signUp store username email code newId = .usernameTaken)
    ∧ ((∀ u ∈ store, u.email = email → u.username = username) →
        (∀ u ∈ store, u.username = username → u.email = email) →
        (∃ u ∈ store, u.username = username ∧ u.email = email) →
        ∃ store',
          signUp store username email code newId = .okResponse store' email username
          ∧ store'.map User.username = store.map User.username
          ∧ store'.map User.email = store.map User.email
          ∧ store'.length = store.length)
    ∧ ((∀ u ∈ store, u.username ≠ username ∧ u.email ≠ email) →
        signUp store username email code newId
          = .okResponse (freshUser newId username email code :: store) email username) := by
  refine ⟨?_, ?_, ?_, ?_⟩
  · rintro ⟨u, hu, hue, hun'⟩
    have hc1 : store.any (fun v => v.email == email && !(v.username == username)) = true :=
      List.any_eq_true.mpr ⟨u, hu, by simp [hue, hun']⟩
    simp [signUp, hun, hc1]
  · intro h1 h2
    have hc1 : store.any (fun v => v.email == email && !(v.username == username)) = false := by
      rw [List.any_eq_false]
      intro v hv
      have := h1 v hv
      simp only [Bool.and_eq_true, beq_iff_eq, Bool.not_eq_true', beq_eq_false_iff_ne]
      tauto
    obtain ⟨u, hu, hname, hmail⟩ := h2
    have hc2 : store.any (fun v => v.username == username && !(v.email == email)) = true :=
      List.any_eq_true.mpr ⟨u, hu, by simp [hname, hmail]⟩
    simp [signUp, hun, hc1, hc2]
  · intro h1 h2 hex
    have hc1 : store.any (fun v => v.email == email && !(v.username == username)) = false := by
      rw [List.any_eq_false]
      intro v hv
      have := h1 v hv
      simp only [Bool.and_eq_true, beq_iff_eq, Bool.not_eq_true', beq_eq_false_iff_ne]
      tauto
    have hc2 : store.any (fun v => v.username == username && !(v.email == email)) = false := by
      rw [List.any_eq_false]
      intro v hv
      have := h2 v hv
      simp only [Bool.and_eq_true, beq_iff_eq, Bool.not_eq_true', beq_eq_false_iff_ne]
      tauto
    obtain ⟨u, hu, hname, _⟩ := hex
    cases hf : store.find? (fun v => v.username == username) with
    | none =>
      exact absurd (by simpa using hname)
        (List.find?_eq_none.mp hf u hu)
    | some u0 =>
      have hu0name : u0.username = username := by simpa using List.find?_some hf
      have hu0mem : u0 ∈ store := List.mem_of_find?_eq_some hf
      have hu0mail : u0.email = email := h2 u0 hu0mem hu0name
      refine ⟨store.map fun v =>
        if v.username == username then { v with confirmation_code := code } else v,
        ?_, ?_, ?_, by simp⟩
      · simp [signUp, hun, hc1, hc2, hf, hu0mail]
      · rw [List.map_map]
        apply List.map_congr_left
        intro v _
        show User.username (if v.username == username then _ else v) = v.username
        split <;> rfl
      · rw [List.map_map]
        apply List.map_congr_left
        intro v _
        show User.email (if v.username == username then _ else v) = v.email
        split <;> rfl
  · intro h
    have hc1 : store.any (fun v => v.email == email && !(v.username == username)) = false := by
      rw [List.any_eq_false]
      intro v hv
      have := h v hv
      simp only [Bool.and_eq_true, beq_iff_eq, Bool.not_eq_true', beq_eq_false_iff_ne]
      tauto
    have hc2 : store.any (fun v => v.username == username && !(v.email == email)) = false := by
      rw [List.any_eq_false]
      intro v hv
      have := h v hv
      simp only [Bool.and_eq_true, beq_iff_eq, Bool.not_eq_true', beq_eq_false_iff_ne]
      tauto
    have hf : store.find? (fun v => v.username == username) = none :=
      List.find?_eq_none.mpr (fun v hv => by simpa using (h v hv).1)
    simp [signUp, hun, hc1, hc2, hf]

/-- Witness for C6: a new identity is created in an empty store, and a
partial collision on email fails. -/
theorem c6_signup_witness :
    signUp [] "alice" "a@x.com" "s3cret" 1
      = .okResponse [freshUser 1 "alice" "a@x.com" "s3cret"] "a@x.com" "alice"
    ∧ signUp [freshUser 1 "alice" "a@x.com" "s3cret"] "bob" "a@x.com" "t0ken" 2
      = .emailTaken :=
  ⟨(c6_signup [] "alice" "a@x.com" "s3cret" 1 (by rfl)).2.2.2 (by simp),
   (c6_signup [freshUser 1 "alice" "a@x.com" "s3cret"] "bob" "a@x.com" "t0ken" 2
      (by rfl)).1 ⟨freshUser 1 "alice" "a@x.com" "s3cret", by simp, by simp [freshUser], by simp [freshUser]⟩⟩

/-- Claim C7: token exchange with a pattern-valid username answers
NOT_FOUND when no identity has that username, the invalid-credential
failure when the stored confirmation code differs from the supplied one,
and a token bound to the identity only on exact match. -/
theorem c7_token_exchange (store : List User) (username code : String)
    (hpat : matchesUsernamePattern username = true) :
    ((∀ u ∈ store, u.username ≠ username) →
        tokenExchange store username code = .userAbsent)
    ∧ (∀ u, store.find? (fun v => v.username == username) = some u →
        (u.confirmation_code ≠ code → tokenExchange store username code = .wrongCode)
        ∧ (u.confirmation_code = code →
            tokenExchange store username code = .tokenIssued u.id)) := by
  constructor
  · intro habs
    have hnone : store.find? (fun v => v.username == username) = none :=
      List.find?_eq_none.mpr (fun x hx => by simpa using habs x hx)
    simp [tokenExchange, hpat, hnone]
  · intro u hf
    constructor
    · intro hne
      simp [tokenExchange, hpat, hf, hne]
    · intro heq
      simp [tokenExchange, hpat, hf, heq]

/-- Witness for C7: unknown username, wrong code and matching code on a
one-user store. -/
theorem c7_token_exchange_witness :
    tokenExchange [] "alice" "x" = .userAbsent
    ∧ tokenExchange [mkUser 1 "user"] "u" "bad" = .wrongCode
    ∧ tokenExchange [mkUser 1 "user"] "u" "c" = .tokenIssued 1 :=
  ⟨(c7_token_exchange [] "alice" "x" (by decide)).1 (by simp),
   ((c7_token_exchange [mkUser 1 "user"] "u" "bad" (by decide)).2 (mkUser 1 "user")
      (by decide)).1 (by decide),
   ((c7_token_exchange [mkUser 1 "user"] "u" "c" (by decide)).2 (mkUser 1 "user")
      (by decide)).2 (by decide)⟩

/-- One step of the serializer update: a writable field is assigned, a
non-writable one is dropped. -/
theorem serializerApply_cons (w : List UserField) (u : User) (p : UserField × String)
    (ps : List (UserField × String)) :
    serializerApply w u (p :: ps) =
      if w.contains p.1 then serializerApply w (setField u p.1 p.2) ps
      else serializerApply w u ps := by
  unfold serializerApply
  rw [List.filter_cons]
  by_cases h : p.1 ∈ w <;> simp [h]

/-- Whatever incoming data is supplied, the update through
`MeSerializer`'s writable set never changes the role. -/
theorem serializerApply_keeps_role (u : User) (data : List (UserField × String)) :
    (serializerApply meWritableFields u data).role = u.role := by
  induction data generalizing u with
  | nil => rfl
  | cons p ps ih =>
    rw [serializerApply_cons]
    by_cases h : meWritableFields.contains p.1
    · rw [if_pos h, ih]
      cases hq : p.1 <;>
        first
        | rfl
        | (rw [hq] at h; exact absurd h (by decide))
    · rw [if_neg h]
      exact ih u

/-- Claim C8: a self-profile update that supplies a role value succeeds
with the role silently dropped — the stored role is unchanged — while
all other supplied writable fields (username, email, first_name,
last_name, bio) are updated; and no incoming data whatsoever can change
the role through this path. -/
theorem c8_me_role_silently_ignored (u : User) (un em fn ln bi rv : String)
    (hun : validate_username_field un = .ok un) :
    (∀ data : List (UserField × String),
        (serializerApply meWritableFields u data).role = u.role)
    ∧ ∃ u₂,
        meUpdate u [(.usernameF, un), (.emailF, em), (.firstNameF, fn),
          (.lastNameF, ln), (.bioF, bi), (.roleF, rv)] = .ok u₂
        ∧ u₂.role = u.role ∧ u₂.username = un ∧ u₂.email = em
        ∧ u₂.first_name = fn ∧ u₂.last_name = ln ∧ u₂.bio = bi := by
  refine ⟨fun data => serializerApply_keeps_role u data, ?_⟩
  refine ⟨{ u with
            username := un
            email := em
            first_name := fn
            last_name := ln
            bio := bi }, ?_, rfl, rfl, rfl, rfl, rfl, rfl⟩
  have hv : meValidate [(.usernameF, un), (.emailF, em), (.firstNameF, fn),
      (.lastNameF, ln), (.bioF, bi), (.roleF, rv)] = true := by
    simp [meValidate, hun]
  simp [meUpdate, hv, serializerApply, List.filter, meWritableFields, meFields,
    meReadOnlyFields, setField]

/-- Witness for C8: a concrete profile update with a role escalation
attempt leaves the role at `user` and applies the other fields. -/
theorem c8_me_role_silently_ignored_witness :
    ∃ u₂,
      meUpdate (mkUser 1 "user") [(.usernameF, "alice"), (.emailF, "a@x.com"),
        (.firstNameF, "A"), (.lastNameF, "L"), (.bioF, "hi"), (.roleF, "admin")] = .ok u₂
      ∧ u₂.role = (mkUser 1 "user").role ∧ u₂.username = "alice" ∧ u₂.email = "a@x.com"
      ∧ u₂.first_name = "A" ∧ u₂.last_name = "L" ∧ u₂.bio = "hi" :=
  (c8_me_role_silently_ignored (mkUser 1 "user") "alice" "a@x.com" "A" "L" "hi" "admin"
    (by rfl)).2

/-- Claim C9: a DELETE on `/users/me` answers METHOD_NOT_ALLOWED and the
identity store is returned unchanged. -/
theorem c9_me_delete_method_not_allowed (u : User) (data : List (UserField × String))
    (store : List User) :
    meHandler .delete u data store = (.methodNotAllowed, store) := rfl

/-- Claim C10: the duplicate-review pre-check fires only under POST: on
PATCH the guard is always silent, so `updateReview` can never answer the
duplicate-review CONFLICT, even when a review by that author for that
title already exists. -/
theorem c10_patch_skips_uniqueness_check (m : Method) (store : List Review)
    (titleId authorId reviewId score : Nat) (text : String) :
    (reviewUniquenessGuard m store titleId authorId = true → m = .post)
    ∧ reviewUniquenessGuard .patch store titleId authorId = false
    ∧ updateReview store reviewId score text ≠ .conflict := by
  refine ⟨?_, by simp [reviewUniquenessGuard], ?_⟩
  · intro h
    cases m <;> simp_all [reviewUniquenessGuard]
  · unfold updateReview
    cases hf : store.find? (fun r => r.id == reviewId) with
    | none => simp
    | some r =>
      by_cases hs : validate_score score <;> simp [hs, reviewUniquenessGuard]

/-- Counterexample to C1 as stated: with author 1 already holding a
review on title 1, a second create with the out-of-range score 11 does
not fail with the duplicate-review CONFLICT — field validation of the
score fires first. -/
theorem c1_counterexample :
    hasReviewFor [rev0] 1 1 = true
    ∧ createReview [1] [rev0] 1 1 11 "second try" 1 ≠ .conflict
    ∧ createReview [1] [rev0] 1 1 11 "second try" 1 = .scoreInvalid := by
  decide

/-- Claim C1 (amended): with an in-range score, a second create for an
existing (title, author) pair fails with CONFLICT regardless of score
and text (an out-of-range score fails score validation first); and the
at-most-one-review-per-(title, author) invariant is preserved by create,
update and delete. -/
theorem c1_review_uniqueness_amended
    (titles : List Nat) (store : List Review) (authorId titleId score newId : Nat)
    (text : String)
    (hdup : hasReviewFor store titleId authorId = true)
    (hscore : validate_score score = true) :
    createReview titles store authorId titleId score text newId = .conflict
    ∧ (∀ (ts : List Nat) (st st' : List Review) (a t s nid : Nat) (tx : String),
        uniquePerTitleAuthor st → createReview ts st a t s tx nid = .created st' →
        uniquePerTitleAuthor st')
    ∧ (∀ (st st' : List Review) (rid s : Nat) (tx : String),
        uniquePerTitleAuthor st → updateReview st rid s tx = .updated st' →
        uniquePerTitleAuthor st')
    ∧ (∀ (st : List Review) (rid : Nat),
        uniquePerTitleAuthor st → uniquePerTitleAuthor (deleteReview st rid)) := by
  refine ⟨by simp [createReview, hscore, reviewUniquenessGuard, hdup], ?_, ?_, ?_⟩
  · intro ts st st' a t s nid tx hu hc
    unfold createReview at hc
    by_cases h1 : validate_score s
    · by_cases h2 : reviewUniquenessGuard .post st t a
      · simp [h1, h2] at hc
      · by_cases h3 : t ∈ ts
        · simp [h1, h2, h3] at hc
          have hfalse : hasReviewFor st t a = false := by
            simpa [reviewUniquenessGuard] using h2
          rw [← hc]
          unfold uniquePerTitleAuthor
          rw [List.pairwise_cons]
          refine ⟨?_, hu⟩
          intro r hr
          have hne := List.any_eq_false.mp hfalse r hr
          simp only [Bool.and_eq_true, beq_iff_eq, not_and_or] at hne ⊢
          rcases hne with h | h
          · exact Or.inl fun he => h he.symm
          · exact Or.inr fun he => h he.symm
        · simp [h1, h2, h3] at hc
    · simp [h1] at hc
  · intro st st' rid s tx hu hc
    unfold updateReview at hc
    cases hf : st.find? (fun r => r.id == rid) with
    | none => simp [hf] at hc
    | some r =>
      by_cases hs : validate_score s
      · simp [hf, hs, reviewUniquenessGuard] at hc
        rw [← hc]
        unfold uniquePerTitleAuthor at hu ⊢
        rw [List.pairwise_map]
        refine hu.imp ?_
        intro a b hab
        by_cases ha : a.id = rid <;> by_cases hb : b.id = rid <;>
          simpa [ha, hb] using hab
      · simp [hf, hs] at hc
  · intro st rid hu
    unfold uniquePerTitleAuthor at hu ⊢
    unfold deleteReview
    exact List.Pairwise.sublist (List.filter_sublist st) hu

/-- Witness for C1 (amended): a second in-range review by author 1 on
title 1 answers CONFLICT. -/
theorem c1_review_uniqueness_amended_witness :
    createReview [1] [rev0] 1 1 5 "again" 2 = .conflict :=
  (c1_review_uniqueness_amended [1] [rev0] 1 1 5 2 "again" (by decide) (by decide)).1

/-- Witness for C10: with an existing review by author 1 on title 1 in
the store, the PATCH guard is silent and an update is never CONFLICT. -/
theorem c10_patch_skips_uniqueness_check_witness :
    reviewUniquenessGuard .patch [rev0] 1 1 = false
    ∧ updateReview [rev0] 0 5 "better" ≠ .conflict :=
  ⟨(c10_patch_skips_uniqueness_check .patch [rev0] 1 1 0 5 "better").2.1,
   (c10_patch_skips_uniqueness_check .patch [rev0] 1 1 0 5 "better").2.2⟩
